import Mathlib

/-
  Verification development for the 2D simulator core (`game.py`) of the
  ICRA2019 AI Challenge 2D simulation repository.

  The file embeds the collision-detection-and-resolution logic of
  `Game.update` and the registration logic of `Game.add_game_object`
  directly from `src/game.py`.  The vector / pose / geometry modules the
  source imports (`physics`, `collision_engine_2d`, `game_objects`) are not
  part of the visible sources; their operations are modelled from the
  specification, and each such definition is marked
  "Modelled from the spec:" in its doc comment.
-/

open scoped Classical

noncomputable section

/-- Modelled from the spec: `Vector2D` from the physics module (module not in
src) — an ordered pair of real numbers. -/
structure Vector2D where
  x : ℝ
  y : ℝ

/-- Modelled from the spec: vector addition (used by `new_v += pose.position`
in `game.py`). -/
instance : Add Vector2D :=
  ⟨fun a b => ⟨a.x + b.x, a.y + b.y⟩⟩

/-- Modelled from the spec: rotation of a vector about the coordinate origin
by an angle in radians. -/
def Vector2D.rotate (v : Vector2D) (a : ℝ) : Vector2D :=
  ⟨v.x * Real.cos a - v.y * Real.sin a, v.x * Real.sin a + v.y * Real.cos a⟩

/-- Modelled from the spec: Euclidean distance between two vectors
(`find_distance` in the physics module, module not in src). -/
def Vector2D.find_distance (v w : Vector2D) : ℝ :=
  Real.sqrt ((v.x - w.x) ^ 2 + (v.y - w.y) ^ 2)

/-- Modelled from the spec: `Orient2D`, a single heading angle about the
out-of-plane axis (accessed as `.z` in `game.py`). -/
structure Orient2D where
  z : ℝ

/-- `Pose2D`: position plus orientation, as used throughout `game.py`. -/
structure Pose2D where
  position : Vector2D
  orientation : Orient2D

/-- Modelled from the spec: a `Robot` is a mobile agent with a pose and a
circular bounding radius (the class itself lives in the `game_objects`
module, not in src; `game.py` accesses `pose` and `radius`). -/
structure Robot where
  pose : Pose2D
  radius : ℝ

/-- Modelled from the spec: a `Wall` is a static obstacle with a pose and a
single closed polygon given by local-frame vertices
(`shape_set[0].vertex` in `game.py`). -/
structure Wall where
  pose : Pose2D
  vertex : List Vector2D

/-- Modelled from the spec: a `Zone` is a static, non-colliding marker region
with a pose. -/
structure Zone where
  pose : Pose2D

/-- The closed set of game-object variants handled by `game.py`
(`Robot`, `Wall`, `Zone`). -/
inductive GameObject where
  | robot : Robot → GameObject
  | wall : Wall → GameObject
  | zone : Zone → GameObject

/-- Current pose of a game object. -/
def GameObject.pose : GameObject → Pose2D
  | .robot r => r.pose
  | .wall w => w.pose
  | .zone z => z.pose

/-- Modelled from the spec: `moveTo` from the `game_objects` module (not in
src) sets the object's pose, leaving everything else unchanged
("restore the snapshot from step 1 as the object's pose"). -/
def GameObject.moveTo : GameObject → Pose2D → GameObject
  | .robot r, p => .robot ⟨p, r.radius⟩
  | .wall w, p => .wall ⟨p, w.vertex⟩
  | .zone _, p => .zone ⟨p⟩

/-- Modelled from the spec: `Point2D` from the collision-engine module
(module not in src) — a 2D coordinate. -/
structure Point2D where
  x : ℝ
  y : ℝ

/-- Modelled from the spec: an infinite `Line2D`, parametrised by a point on
the line and a direction vector. -/
structure Line2D where
  p : Point2D
  dir : Point2D

/-- Modelled from the spec: a `LineSegment2D` bounded by two endpoints. -/
structure LineSegment2D where
  point1 : Point2D
  point2 : Point2D

/-- Direction vector of a segment's underlying infinite line. -/
def LineSegment2D.segDir (e : LineSegment2D) : Point2D :=
  ⟨e.point2.x - e.point1.x, e.point2.y - e.point1.y⟩

/-- 2D cross product of two direction vectors. -/
def cross2 (a b : Point2D) : ℝ :=
  a.x * b.y - a.y * b.x

/-- Modelled from the spec: `find_perpendicular(through_point)` returns the
line through `through_point` perpendicular to the segment's underlying
line. -/
def LineSegment2D.find_perpendicular (e : LineSegment2D) (through_point : Point2D) : Line2D :=
  ⟨through_point, ⟨-(e.point2.y - e.point1.y), e.point2.x - e.point1.x⟩⟩

/-- Modelled from the spec: `find_intersection` returns the intersection
point of the two underlying infinite lines, or an explicit empty result
when the lines are parallel (including coincident) — never an exception. -/
def Line2D.find_intersection (l : Line2D) (e : LineSegment2D) : Option Point2D :=
  let d := e.segDir
  let denom := cross2 l.dir d
  if denom = 0 then none
  else
    let t := cross2 ⟨e.point1.x - l.p.x, e.point1.y - l.p.y⟩ d / denom
    some ⟨l.p.x + t * l.dir.x, l.p.y + t * l.dir.y⟩

/-- Modelled from the spec: `find_distance(point)` on a segment is the
perpendicular distance from the point to the underlying infinite line
(not clamped to the segment). -/
def LineSegment2D.find_distance (e : LineSegment2D) (q : Point2D) : ℝ :=
  |cross2 e.segDir ⟨q.x - e.point1.x, q.y - e.point1.y⟩| /
    Real.sqrt (e.segDir.x ^ 2 + e.segDir.y ^ 2)

/-- Modelled from the spec: Python `math.isclose(a, b, rel_tol=1e-4)` with
the default absolute tolerance 0. -/
def isclose (a b : ℝ) : Prop :=
  |a - b| ≤ 1 / 10000 * max |a| |b|

/-- The world-frame position of a wall's local vertex, exactly as computed at
`game.py` lines 145-148: rotate the local vertex by the wall's orientation,
then add the wall's position. -/
def worldVertex (w : Wall) (v : Vector2D) : Vector2D :=
  (v.rotate w.pose.orientation.z) + w.pose.position

/-- The inline circle-circle predicate of `game.py` lines 129-131: the
distance between the two positions is strictly below the sum of the radii. -/
def robotHit (g r : Robot) : Prop :=
  g.pose.position.find_distance r.pose.position < g.radius + r.radius

/-- The robot's center as a `Point2D`, as constructed at `game.py`
lines 172-175 and 194-198. -/
def robotCenter (g : Robot) : Point2D :=
  ⟨g.pose.position.x, g.pose.position.y⟩

/-- The vertex loop of `game.py` lines 142-157 (entered with the collision
flag still false): walk the wall's local vertices; transform each to world
frame; report a corner collision as soon as one world vertex is strictly
within the robot's radius, otherwise accumulate the world vertex in
`coords`. Returns the collision flag together with the accumulated
`coords`. -/
def vertexLoop (g : Robot) (w : Wall) : List Vector2D → List Vector2D → Bool × List Vector2D
  | [], coords => (false, coords)
  | v :: rest, coords =>
    let new_v := worldVertex w v
    if new_v.find_distance g.pose.position < g.radius then (true, coords)
    else vertexLoop g w rest (coords ++ [new_v])

/-- The edge-construction loop of `game.py` lines 159-167 (entered with the
collision flag false, in which case it never breaks): consecutive
world-frame vertices form bounded segments, the last vertex connecting back
to the first via modular indexing. -/
def mkEdges (coords : List Vector2D) : List LineSegment2D :=
  (List.range coords.length).map fun i =>
    ⟨⟨(coords.getD i ⟨0, 0⟩).x, (coords.getD i ⟨0, 0⟩).y⟩,
     ⟨(coords.getD ((i + 1) % coords.length) ⟨0, 0⟩).x,
      (coords.getD ((i + 1) % coords.length) ⟨0, 0⟩).y⟩⟩

/-- The axis-aligned bounding-box acceptance test of `game.py` lines
180-192: each coordinate of the intersection point must be within the
edge's bounds, where a coordinate outside a strict bound still passes when
it is within relative tolerance 1e-4 of that bound. -/
def inBoundingBox (pt : Point2D) (e : LineSegment2D) : Prop :=
  let xmax := max e.point1.x e.point2.x
  let xmin := min e.point1.x e.point2.x
  let ymax := max e.point1.y e.point2.y
  let ymin := min e.point1.y e.point2.y
  (pt.x ≤ xmax ∨ isclose pt.x xmax) ∧ (xmin ≤ pt.x ∨ isclose pt.x xmin) ∧
  (pt.y ≤ ymax ∨ isclose pt.y ymax) ∧ (ymin ≤ pt.y ∨ isclose pt.y ymin)

/-- One iteration of the edge loop of `game.py` lines 169-203: build the
perpendicular through the robot's center, intersect it with the edge's
line; on an explicit empty intersection the edge contributes nothing;
otherwise accept the intersection point only inside the tolerant bounding
box, and report a collision only when the perpendicular distance from the
center to the edge's line is strictly below the robot's radius. -/
def edgeCollides (g : Robot) (e : LineSegment2D) : Bool :=
  let perpendicular_line := e.find_perpendicular (robotCenter g)
  match perpendicular_line.find_intersection e with
  | none => false
  | some inter =>
    if inBoundingBox inter e then
      if e.find_distance (robotCenter g) < g.radius then true else false
    else false

/-- The edge loop of `game.py` lines 169-203 over the whole edge list:
stop at the first edge collision. -/
def edgeLoop (g : Robot) : List LineSegment2D → Bool
  | [] => false
  | e :: rest => if edgeCollides g e then true else edgeLoop g rest

/-- The full circle-polygon check of `game.py` lines 139-203 for one wall,
entered with the collision flag false: the vertex (corner) stage first;
if it fails, the edge stage over the edges built from the accumulated
world vertices. -/
def wallCheck (g : Robot) (w : Wall) : Bool :=
  let res := vertexLoop g w w.vertex []
  if res.1 then true else edgeLoop g (mkEdges res.2)

/-- The collision loop of `game.py` lines 126-204 for the moving robot `g`
sitting at index `i` of the object list: `j` is the index of the head of
the remaining list, `c` the current collision flag.  A positive
circle-circle test breaks out of the loop at once; a wall whose check is
positive sets the flag, and once the flag is set the wall stages are
skipped by their `if collision: break` guards; zones are never examined. -/
def collisionLoop (g : Robot) (i : Nat) : List GameObject → Nat → Bool → Bool
  | [], _, c => c
  | o :: rest, j, c =>
    match o with
    | .robot r =>
      if j ≠ i ∧ robotHit g r then true
      else collisionLoop g i rest (j + 1) c
    | .wall w =>
      if c then collisionLoop g i rest (j + 1) c
      else if wallCheck g w then collisionLoop g i rest (j + 1) true
      else collisionLoop g i rest (j + 1) c
    | .zone _ => collisionLoop g i rest (j + 1) c

/-- The body of the per-object loop of `Game.update` (`game.py` lines
117-206) for the object at index `i`: snapshot the pose, apply the
object's own motion update (`objUpdate`, an external-collaborator
parameter giving the new pose), and, when the object is a robot, run the
collision loop against the current object list and roll the pose back in
full on a positive result. -/
def processIdx (objUpdate : GameObject → ℝ → Pose2D) (t : ℝ)
    (objs : List GameObject) (i : Nat) : List GameObject :=
  match objs[i]? with
  | none => objs
  | some o =>
    let old_pose := o.pose
    let o2 := o.moveTo (objUpdate o t)
    let objs2 := objs.set i o2
    match o2 with
    | .robot r =>
      if collisionLoop r i objs2 0 false = true then
        objs2.set i (GameObject.moveTo (.robot r) old_pose)
      else objs2
    | _ => objs2

/-- `Game.update` (`game.py` lines 114-206) at the level of the object
list: process every object, in registration order, by `processIdx`. -/
def updateObjects (objUpdate : GameObject → ℝ → Pose2D) (t : ℝ)
    (objs : List GameObject) : List GameObject :=
  (List.range objs.length).foldl (processIdx objUpdate t) objs

/-- A record of one geometric predicate evaluation performed by the
collision loop: the circle-circle distance test against the (distinct)
robot at index `j`, the corner test of vertex `k` of the wall at index
`j`, or the edge test of edge `k` of the wall at index `j`. -/
inductive CheckEvent where
  | rrTest : ℕ → CheckEvent
  | vertexTest : ℕ → ℕ → CheckEvent
  | edgeTest : ℕ → ℕ → CheckEvent

/-- `vertexLoop` instrumented with the trace of evaluated vertex predicates
(`jdx` is the wall's index, `k` the current vertex index). -/
def vertexLoopT (g : Robot) (w : Wall) (jdx : ℕ) :
    List Vector2D → ℕ → List Vector2D → List CheckEvent →
      Bool × List Vector2D × List CheckEvent
  | [], _, coords, evs => (false, coords, evs)
  | v :: rest, k, coords, evs =>
    let new_v := worldVertex w v
    if new_v.find_distance g.pose.position < g.radius then
      (true, coords, evs ++ [.vertexTest jdx k])
    else vertexLoopT g w jdx rest (k + 1) (coords ++ [new_v]) (evs ++ [.vertexTest jdx k])

/-- `edgeLoop` instrumented with the trace of evaluated edge predicates. -/
def edgeLoopT (g : Robot) (jdx : ℕ) :
    List LineSegment2D → ℕ → List CheckEvent → Bool × List CheckEvent
  | [], _, evs => (false, evs)
  | e :: rest, k, evs =>
    if edgeCollides g e then (true, evs ++ [.edgeTest jdx k])
    else edgeLoopT g jdx rest (k + 1) (evs ++ [.edgeTest jdx k])

/-- `wallCheck` instrumented with the trace of evaluated predicates. -/
def wallCheckT (g : Robot) (w : Wall) (jdx : ℕ) : Bool × List CheckEvent :=
  let res := vertexLoopT g w jdx w.vertex 0 [] []
  if res.1 then (true, res.2.2)
  else edgeLoopT g jdx (mkEdges res.2.1) 0 res.2.2

/-- `collisionLoop` instrumented with the trace of evaluated predicates, in
evaluation order.  Mirrors the control flow of `game.py` lines 126-204:
the circle-circle distance is computed for every distinct robot
encountered (Python's short-circuit `and` reaches it whenever the type
and identity tests pass), and a positive result breaks out of the loop;
wall stages run only while the collision flag is still down. -/
def collisionLoopT (g : Robot) (i : ℕ) :
    List GameObject → ℕ → Bool → List CheckEvent → Bool × List CheckEvent
  | [], _, c, evs => (c, evs)
  | o :: rest, j, c, evs =>
    match o with
    | .robot r =>
      if j ≠ i then
        if robotHit g r then (true, evs ++ [.rrTest j])
        else collisionLoopT g i rest (j + 1) c (evs ++ [.rrTest j])
      else collisionLoopT g i rest (j + 1) c evs
    | .wall w =>
      if c then collisionLoopT g i rest (j + 1) c evs
      else
        let res := wallCheckT g w j
        collisionLoopT g i rest (j + 1) res.1 (evs ++ res.2)
    | .zone _ => collisionLoopT g i rest (j + 1) c evs

/-- The game state: the registered object list (`self.game_objects`). -/
structure Game where
  game_objects : List GameObject

/-- `Game.update` (`game.py` lines 114-206). -/
def Game.update (gm : Game) (objUpdate : GameObject → ℝ → Pose2D) (t_interval : ℝ) : Game :=
  ⟨updateObjects objUpdate t_interval gm.game_objects⟩

/-- A Python value passed to `add_game_object`: either one of the recognized
game-object variants, or any other value, carried with its type's name. -/
inductive PyValue where
  | gameObject : GameObject → PyValue
  | other : String → PyValue

/-- Whether the value passes `isinstance(obj, GameObject)`. -/
def PyValue.isGameObject : PyValue → Bool
  | .gameObject _ => true
  | .other _ => false

/-- The name of the value's actual type (`type(obj).__name__`). -/
def PyValue.typeName : PyValue → String
  | .gameObject (.robot _) => "Robot"
  | .gameObject (.wall _) => "Wall"
  | .gameObject (.zone _) => "Zone"
  | .other s => s

/-- `Game.add_game_object` (`game.py` lines 104-111): raise a `TypeError`
naming the offending value's actual type when the value is not a
`GameObject`, otherwise append it to the object list. -/
def Game.add_game_object (gm : Game) (v : PyValue) : Except String Game :=
  if v.isGameObject = false then
    .error ("Cannot add '" ++ v.typeName ++ "' type as a game object.")
  else
    match v with
    | .gameObject o => .ok ⟨gm.game_objects ++ [o]⟩
    | .other s => .error ("Cannot add '" ++ s ++ "' type as a game object.")

/-! ### Helper lemmas -/

lemma GameObject.moveTo_pose (o : GameObject) (p : Pose2D) : (o.moveTo p).pose = p := by
  cases o <;> rfl

lemma GameObject.moveTo_pose_self (o : GameObject) : o.moveTo o.pose = o := by
  cases o <;> rfl

lemma GameObject.moveTo_moveTo (o : GameObject) (p q : Pose2D) :
    (o.moveTo p).moveTo q = o.moveTo q := by
  cases o <;> rfl

lemma List.set_self_of_getElem? {α : Type} {l : List α} {i : ℕ} {a : α}
    (h : l[i]? = some a) : l.set i a = l := by
  induction l generalizing i with
  | nil => simp at h
  | cons b t ih =>
    cases i with
    | zero => simp at h; simp [h]
    | succ n => simp at h; simp [List.set, ih h]

lemma Vector2D.find_distance_self (v : Vector2D) : v.find_distance v = 0 := by
  simp [Vector2D.find_distance]

lemma Vector2D.find_distance_lt_iff (v w : Vector2D) {r : ℝ} (hr : 0 < r) :
    v.find_distance w < r ↔ (v.x - w.x) ^ 2 + (v.y - w.y) ^ 2 < r ^ 2 := by
  exact Real.sqrt_lt' hr

lemma processIdx_length (m : GameObject → ℝ → Pose2D) (t : ℝ)
    (objs : List GameObject) (i : ℕ) : (processIdx m t objs i).length = objs.length := by
  unfold processIdx
  cases h : objs[i]? with
  | none => rfl
  | some o =>
    dsimp only
    cases ho : o.moveTo (m o t) with
    | robot r => dsimp only; split <;> simp
    | wall w => simp
    | zone z => simp

lemma processIdx_getElem?_ne (m : GameObject → ℝ → Pose2D) (t : ℝ)
    (objs : List GameObject) (i j : ℕ) (hij : i ≠ j) :
    (processIdx m t objs i)[j]? = objs[j]? := by
  unfold processIdx
  cases h : objs[i]? with
  | none => rfl
  | some o =>
    dsimp only
    cases ho : o.moveTo (m o t) with
    | robot r =>
      dsimp only
      split
      · rw [List.getElem?_set_ne hij, List.getElem?_set_ne hij]
      · rw [List.getElem?_set_ne hij]
    | wall w => simp [List.getElem?_set_ne hij]
    | zone z => simp [List.getElem?_set_ne hij]

lemma foldl_processIdx_ne (m : GameObject → ℝ → Pose2D) (t : ℝ)
    (is : List ℕ) (j : ℕ) (hj : ∀ k ∈ is, k ≠ j) (l : List GameObject) :
    (is.foldl (processIdx m t) l)[j]? = l[j]? := by
  induction is generalizing l with
  | nil => rfl
  | cons k ks ih =>
    simp only [List.foldl_cons]
    rw [ih (fun a ha => hj a (List.mem_cons_of_mem _ ha))]
    exact processIdx_getElem?_ne m t l k j (hj k (List.mem_cons_self k ks))

lemma foldl_processIdx_length (m : GameObject → ℝ → Pose2D) (t : ℝ)
    (is : List ℕ) (l : List GameObject) :
    (is.foldl (processIdx m t) l).length = l.length := by
  induction is generalizing l with
  | nil => rfl
  | cons k ks ih => simp only [List.foldl_cons]; rw [ih, processIdx_length]

lemma Vector2D.add_def (a b : Vector2D) : a + b = ⟨a.x + b.x, a.y + b.y⟩ := rfl

lemma collisionLoop_allRobots (g : Robot) (i : ℕ) (objs : List GameObject) :
    ∀ (j : ℕ) (c : Bool),
      (∀ o ∈ objs, ∃ r, o = GameObject.robot r) →
      (collisionLoop g i objs j c = true ↔
        (c = true ∨ ∃ k r, objs[k]? = some (GameObject.robot r) ∧ j + k ≠ i ∧ robotHit g r)) := by
  induction objs with
  | nil => intro j c _; simp [collisionLoop]
  | cons o rest ih =>
    intro j c hall
    obtain ⟨r, rfl⟩ := hall _ (List.mem_cons_self _ _)
    simp only [collisionLoop]
    by_cases hc : j ≠ i ∧ robotHit g r
    · rw [if_pos hc]
      constructor
      · intro _
        right
        exact ⟨0, r, by simp, by simpa using hc.1, hc.2⟩
      · intro _; rfl
    · rw [if_neg hc, ih (j + 1) c (fun o ho => hall o (List.mem_cons_of_mem _ ho))]
      constructor
      · rintro (h | ⟨k, r', hk, hne, hhit⟩)
        · exact Or.inl h
        · exact Or.inr ⟨k + 1, r', by simpa using hk, by omega, hhit⟩
      · rintro (h | ⟨k, r', hk, hne, hhit⟩)
        · exact Or.inl h
        · cases k with
          | zero =>
            have hr : r = r' := by simpa using hk
            subst hr
            exact absurd ⟨by simpa using hne, hhit⟩ hc
          | succ n =>
            exact Or.inr ⟨n, r', by simpa using hk, by omega, hhit⟩

lemma vertexLoop_fst (g : Robot) (w : Wall) :
    ∀ (vs acc : List Vector2D),
      ((vertexLoop g w vs acc).1 = true ↔
        ∃ v ∈ vs, (worldVertex w v).find_distance g.pose.position < g.radius) := by
  intro vs
  induction vs with
  | nil => intro acc; simp [vertexLoop]
  | cons v rest ih =>
    intro acc
    simp only [vertexLoop]
    by_cases h : (worldVertex w v).find_distance g.pose.position < g.radius
    · rw [if_pos h]
      simp only [true_iff]
      exact ⟨v, List.mem_cons_self _ _, h⟩
    · rw [if_neg h, ih (acc ++ [worldVertex w v])]
      constructor
      · rintro ⟨x, hx, hd⟩
        exact ⟨x, List.mem_cons_of_mem _ hx, hd⟩
      · rintro ⟨x, hx, hd⟩
        rcases List.mem_cons.mp hx with rfl | hx'
        · exact absurd hd h
        · exact ⟨x, hx', hd⟩

lemma lt_length_of_getElem?_some {α : Type} {l : List α} {i : ℕ} {a : α}
    (h : l[i]? = some a) : i < l.length := by
  by_contra hge
  rw [List.getElem?_eq_none (by omega)] at h
  exact Option.noConfusion h

lemma updateObjects_static (m : GameObject → ℝ → Pose2D) (t : ℝ)
    (objs : List GameObject) (j : ℕ) (o2 : GameObject)
    (hj : objs[j]? = some o2)
    (hnr : ∀ r, o2 ≠ GameObject.robot r) :
    (updateObjects m t objs)[j]? = some (o2.moveTo (m o2 t)) := by
  have hlt : j < objs.length := lt_length_of_getElem?_some hj
  unfold updateObjects
  have hL : objs.length = j + ((objs.length - j - 1) + 1) := by omega
  rw [hL, List.range_add, List.range_succ_eq_map, List.map_cons, List.map_map,
    List.foldl_append, List.foldl_cons]
  have h1 : ((List.range j).foldl (processIdx m t) objs)[j]? = some o2 := by
    rw [foldl_processIdx_ne m t _ j (fun k hk => by rw [List.mem_range] at hk; omega)]
    exact hj
  have hlen1 : ((List.range j).foldl (processIdx m t) objs).length = objs.length :=
    foldl_processIdx_length m t _ objs
  have hstep : (processIdx m t ((List.range j).foldl (processIdx m t) objs) (j + 0))[j]? =
      some (o2.moveTo (m o2 t)) := by
    rw [Nat.add_zero, processIdx, h1]
    dsimp only
    cases o2 with
    | robot r => exact absurd rfl (hnr r)
    | wall w =>
      simp only [GameObject.moveTo]
      rw [List.getElem?_set_self (by rw [hlen1]; omega)]
    | zone z =>
      simp only [GameObject.moveTo]
      rw [List.getElem?_set_self (by rw [hlen1]; omega)]
  rw [foldl_processIdx_ne m t _ j
    (fun k hk => by
      simp only [List.mem_map, Function.comp] at hk
      obtain ⟨a, -, rfl⟩ := hk
      omega)]
  exact hstep

/-- The orthogonal projection (foot of the perpendicular) of `q` onto the
underlying infinite line of the segment `e`; reference point for C4. -/
def footOfPerp (q : Point2D) (e : LineSegment2D) : Point2D :=
  ⟨e.point1.x +
      ((q.x - e.point1.x) * e.segDir.x + (q.y - e.point1.y) * e.segDir.y) /
        (e.segDir.x ^ 2 + e.segDir.y ^ 2) * e.segDir.x,
   e.point1.y +
      ((q.x - e.point1.x) * e.segDir.x + (q.y - e.point1.y) * e.segDir.y) /
        (e.segDir.x ^ 2 + e.segDir.y ^ 2) * e.segDir.y⟩

lemma perp_intersection (q : Point2D) (e : LineSegment2D)
    (h : e.segDir.x ^ 2 + e.segDir.y ^ 2 ≠ 0) :
    (e.find_perpendicular q).find_intersection e = some (footOfPerp q e) := by
  simp only [LineSegment2D.segDir] at h
  simp only [Line2D.find_intersection, LineSegment2D.find_perpendicular,
    LineSegment2D.segDir, cross2, footOfPerp]
  split_ifs with h0
  · exact absurd (by linear_combination -h0) h
  · simp only [Option.some.injEq, Point2D.mk.injEq]
    have hden : -(e.point2.y - e.point1.y) * (e.point2.y - e.point1.y) -
        (e.point2.x - e.point1.x) * (e.point2.x - e.point1.x) =
        -((e.point2.x - e.point1.x) ^ 2 + (e.point2.y - e.point1.y) ^ 2) := by ring
    rw [hden]
    constructor
    · rw [div_neg]
      field_simp [h]
      ring
    · rw [div_neg]
      field_simp [h]
      ring

/-! ### Claims -/

/-- C1: for every pair of distinct robots, a collision is reported by the
collision loop iff the Euclidean distance between their positions is
strictly below the sum of their bounding radii; exact tangency
(distance equal to the sum) is never a collision. -/
theorem C1_circle_circle (g : Robot) (i : ℕ) (objs : List GameObject)
    (hall : ∀ o ∈ objs, ∃ r, o = GameObject.robot r) :
    (collisionLoop g i objs 0 false = true ↔
      ∃ k r, objs[k]? = some (GameObject.robot r) ∧ k ≠ i ∧
        g.pose.position.find_distance r.pose.position < g.radius + r.radius)
    ∧ ∀ (a b : Robot),
        a.pose.position.find_distance b.pose.position = a.radius + b.radius →
        ¬ robotHit a b := by
  constructor
  · rw [collisionLoop_allRobots g i objs 0 false hall]
    simp [robotHit]
  · intro a b hab
    simp [robotHit, hab]

def rA : Robot := ⟨⟨⟨0, 0⟩, ⟨0⟩⟩, 10⟩

def rB : Robot := ⟨⟨⟨15, 0⟩, ⟨0⟩⟩, 6⟩

def objsRR : List GameObject := [.robot rA, .robot rB]

/-- Witness for C1: the spec's own example — robot A at the origin with
radius 10 and robot B at (15, 0) with radius 6 are 15 < 16 apart, so the
collision loop run for A reports a collision. -/
theorem C1_circle_circle_witness :
    (∀ o ∈ objsRR, ∃ r, o = GameObject.robot r) ∧
    collisionLoop rA 0 objsRR 0 false = true := by
  have hall : ∀ o ∈ objsRR, ∃ r, o = GameObject.robot r := by
    intro o ho
    rcases ho with _ | ⟨_, h⟩
    · exact ⟨rA, rfl⟩
    · rcases h with _ | ⟨_, h⟩
      · exact ⟨rB, rfl⟩
      · cases h
  refine ⟨hall, ?_⟩
  rw [(C1_circle_circle rA 0 objsRR hall).1]
  refine ⟨1, rB, by simp [objsRR], by omega, ?_⟩
  rw [Vector2D.find_distance_lt_iff _ _ (by norm_num [rA, rB] : (0:ℝ) < rA.radius + rB.radius)]
  norm_num [rA, rB]

/-- C3: the circle-polygon vertex test transforms each local wall vertex to
world frame by rotating it by the wall's orientation and adding the wall's
position, and reports a collision whenever some world vertex is strictly
within the robot's radius of the robot's center; in particular a robot
whose center coincides with a world vertex collides for any positive
radius. -/
theorem C3_vertex_test (g : Robot) (w : Wall) :
    ((∃ v ∈ w.vertex,
        ((v.rotate w.pose.orientation.z) + w.pose.position).find_distance g.pose.position
          < g.radius) → wallCheck g w = true)
    ∧ (∀ v ∈ w.vertex,
        (v.rotate w.pose.orientation.z) + w.pose.position = g.pose.position →
        0 < g.radius → wallCheck g w = true) := by
  have key : (∃ v ∈ w.vertex,
      ((v.rotate w.pose.orientation.z) + w.pose.position).find_distance g.pose.position
        < g.radius) → wallCheck g w = true := by
    intro h
    have h1 : (vertexLoop g w w.vertex []).1 = true :=
      (vertexLoop_fst g w w.vertex []).mpr (by simpa [worldVertex] using h)
    simp only [wallCheck]
    rw [h1]
    simp
  refine ⟨key, ?_⟩
  intro v hv heq hr
  apply key
  refine ⟨v, hv, ?_⟩
  rw [heq]
  simpa [Vector2D.find_distance_self] using hr

/-- C2: when a collision is detected for a robot, its pose after the step is
exactly the pre-update snapshot (a full rollback of the motion update);
the processing of one object never touches any other index; and over a
full tick every wall and zone ends at its own motion-updated pose — the
resolution step never moves them. -/
theorem C2_rollback (m : GameObject → ℝ → Pose2D) (t : ℝ)
    (objs : List GameObject) (i : ℕ) (o : GameObject) (r : Robot)
    (hi : objs[i]? = some o)
    (hr : o.moveTo (m o t) = GameObject.robot r)
    (hc : collisionLoop r i (objs.set i (GameObject.robot r)) 0 false = true) :
    (processIdx m t objs i)[i]? = some ((GameObject.robot r).moveTo o.pose)
    ∧ (∀ (l : List GameObject) (j : ℕ), j ≠ i → (processIdx m t l i)[j]? = l[j]?)
    ∧ (∀ (j : ℕ) (o2 : GameObject), objs[j]? = some o2 →
        ((∃ w, o2 = GameObject.wall w) ∨ (∃ z, o2 = GameObject.zone z)) →
        (updateObjects m t objs)[j]? = some (o2.moveTo (m o2 t))) := by
  refine ⟨?_, ?_, ?_⟩
  · have hlt : i < objs.length := lt_length_of_getElem?_some hi
    rw [processIdx, hi]
    dsimp only
    rw [hr]
    dsimp only
    rw [if_pos hc]
    rw [List.getElem?_set_self (by simpa using hlt)]
  · intro l j hj
    exact processIdx_getElem?_ne m t l i j (fun h => hj h.symm)
  · rintro j o2 hj (⟨w, rfl⟩ | ⟨z, rfl⟩)
    · exact updateObjects_static m t objs j _ hj (fun r h => GameObject.noConfusion h)
    · exact updateObjects_static m t objs j _ hj (fun r h => GameObject.noConfusion h)

def mC2 : GameObject → ℝ → Pose2D := fun _ _ => ⟨⟨9, 0⟩, ⟨0⟩⟩

def oA2 : GameObject := .robot ⟨⟨⟨0, 0⟩, ⟨0⟩⟩, 1⟩

def oB2 : GameObject := .robot ⟨⟨⟨10, 0⟩, ⟨0⟩⟩, 1⟩

def objsC2 : List GameObject := [oA2, oB2]

def rC2 : Robot := ⟨⟨⟨9, 0⟩, ⟨0⟩⟩, 1⟩

/-- Witness for C2: a robot moved from the origin to (9,0) into collision
range of a robot at (10,0); after processing, its stored pose is the
pre-update origin pose again. -/
theorem C2_rollback_witness :
    objsC2[0]? = some oA2
    ∧ oA2.moveTo (mC2 oA2 1) = GameObject.robot rC2
    ∧ collisionLoop rC2 0 (objsC2.set 0 (GameObject.robot rC2)) 0 false = true
    ∧ (processIdx mC2 1 objsC2 0)[0]? = some ((GameObject.robot rC2).moveTo oA2.pose) := by
  have h1 : objsC2[0]? = some oA2 := by simp [objsC2]
  have h2 : oA2.moveTo (mC2 oA2 1) = GameObject.robot rC2 := rfl
  have h3 : collisionLoop rC2 0 (objsC2.set 0 (GameObject.robot rC2)) 0 false = true := by
    have hset : objsC2.set 0 (GameObject.robot rC2) = [GameObject.robot rC2, oB2] := rfl
    rw [hset]
    simp only [objsC2, oB2, collisionLoop]
    rw [if_neg (by simp), if_pos ?_]
    refine ⟨by omega, ?_⟩
    rw [robotHit, Vector2D.find_distance_lt_iff _ _
      (by norm_num [rC2] : (0:ℝ) < rC2.radius + (⟨⟨⟨10, 0⟩, ⟨0⟩⟩, 1⟩ : Robot).radius)]
    norm_num [rC2]
  exact ⟨h1, h2, h3, (C2_rollback mC2 1 objsC2 0 oA2 rC2 h1 h2 h3).1⟩

/-- C4: for a non-degenerate edge, the intersection of the perpendicular
through the robot's center with the edge's line always exists and is the
orthogonal projection (foot) of the center; the edge reports a collision
iff that point passes the tolerant bounding-box acceptance AND the
perpendicular distance from the center to the edge's line is strictly
below the radius; a foot rejected by the bounding box (beyond the 1e-4
relative tolerance) never collides via that edge. -/
theorem C4_edge_test (g : Robot) (e : LineSegment2D)
    (hnd : e.segDir.x ^ 2 + e.segDir.y ^ 2 ≠ 0) :
    (e.find_perpendicular (robotCenter g)).find_intersection e =
      some (footOfPerp (robotCenter g) e)
    ∧ (edgeCollides g e = true ↔
        inBoundingBox (footOfPerp (robotCenter g) e) e ∧
          e.find_distance (robotCenter g) < g.radius)
    ∧ (¬ inBoundingBox (footOfPerp (robotCenter g) e) e → edgeCollides g e = false) := by
  have hint := perp_intersection (robotCenter g) e hnd
  refine ⟨hint, ?_, ?_⟩
  · simp only [edgeCollides]
    rw [hint]
    by_cases hb : inBoundingBox (footOfPerp (robotCenter g) e) e
    · by_cases hd : e.find_distance (robotCenter g) < g.radius
      · simp [hb, hd]
      · simp [hb, hd]
    · simp [hb]
  · intro hb
    simp only [edgeCollides]
    rw [hint]
    simp [hb]

def eC4 : LineSegment2D := ⟨⟨0, 0⟩, ⟨10, 0⟩⟩

def gC4 : Robot := ⟨⟨⟨20, 1⟩, ⟨0⟩⟩, 5⟩

/-- Witness for C4: the edge from (0,0) to (10,0) against a robot centered
at (20,1) of radius 5 — the foot (20,0) lies outside the bounding box far
beyond the 1e-4 tolerance, so no collision is reported via this edge even
though the center is within radius of the infinite line. -/
theorem C4_edge_test_witness :
    eC4.segDir.x ^ 2 + eC4.segDir.y ^ 2 ≠ 0
    ∧ edgeCollides gC4 eC4 = false
    ∧ eC4.find_distance (robotCenter gC4) < gC4.radius := by
  have hnd : eC4.segDir.x ^ 2 + eC4.segDir.y ^ 2 ≠ 0 := by
    norm_num [eC4, LineSegment2D.segDir]
  have hfoot : footOfPerp (robotCenter gC4) eC4 = ⟨20, 0⟩ := by
    simp only [footOfPerp, robotCenter, LineSegment2D.segDir, eC4, gC4]
    norm_num
  refine ⟨hnd, ?_, ?_⟩
  · apply (C4_edge_test gC4 eC4 hnd).2.2
    rw [hfoot]
    rintro ⟨h1, -, -, -⟩
    rcases h1 with h1 | h1
    · norm_num [eC4] at h1
    · rw [isclose] at h1
      norm_num [eC4] at h1
  · simp only [LineSegment2D.find_distance, cross2, LineSegment2D.segDir, robotCenter, eC4, gC4]
    norm_num
    rw [show Real.sqrt 100 = 10 by
      rw [show (100:ℝ) = 10 ^ 2 by norm_num, Real.sqrt_sq (by norm_num : (0:ℝ) ≤ 10)]]
    norm_num

/-- C8: the parallel-line intersection yields an explicit empty result
(never an exception): `find_intersection` is `none` exactly when the two
direction vectors have zero cross product; and the collision engine treats
an empty intersection as no collision via that segment, proceeding to the
next edge. -/
theorem C8_parallel (l : Line2D) (e : LineSegment2D) (g : Robot)
    (rest : List LineSegment2D) :
    (l.find_intersection e = none ↔ cross2 l.dir e.segDir = 0)
    ∧ ((e.find_perpendicular (robotCenter g)).find_intersection e = none →
        edgeCollides g e = false ∧ edgeLoop g (e :: rest) = edgeLoop g rest) := by
  constructor
  · simp only [Line2D.find_intersection]
    by_cases h : cross2 l.dir e.segDir = 0
    · simp [h]
    · simp [h]
  · intro hnone
    have hec : edgeCollides g e = false := by
      simp only [edgeCollides]
      rw [hnone]
    exact ⟨hec, by simp [edgeLoop, hec]⟩

def eC8 : LineSegment2D := ⟨⟨0, 0⟩, ⟨0, 0⟩⟩

def gC8 : Robot := ⟨⟨⟨3, 4⟩, ⟨0⟩⟩, 2⟩

/-- Witness for C8: a degenerate segment whose underlying line is parallel
to (coincident with) the perpendicular: the intersection is the explicit
empty result and the edge contributes no collision. -/
theorem C8_parallel_witness :
    (eC8.find_perpendicular (robotCenter gC8)).find_intersection eC8 = none
    ∧ edgeCollides gC8 eC8 = false
    ∧ edgeLoop gC8 [eC8] = edgeLoop gC8 [] := by
  have hnone : (eC8.find_perpendicular (robotCenter gC8)).find_intersection eC8 = none := by
    apply (C8_parallel (eC8.find_perpendicular (robotCenter gC8)) eC8 gC8 []).1.mpr
    norm_num [cross2, LineSegment2D.segDir, LineSegment2D.find_perpendicular, eC8]
  have h2 := (C8_parallel (eC8.find_perpendicular (robotCenter gC8)) eC8 gC8 []).2 hnone
  exact ⟨hnone, h2⟩

def wC3 : Wall := ⟨⟨⟨0, 0⟩, ⟨0⟩⟩, [⟨0, 0⟩]⟩

def gC3 : Robot := ⟨⟨⟨0, 0⟩, ⟨0⟩⟩, 1⟩

/-- Witness for C3: a robot of radius 1 whose center sits exactly on a wall's
world-frame vertex collides via the vertex test. -/
theorem C3_vertex_test_witness : wallCheck gC3 wC3 = true := by
  apply (C3_vertex_test gC3 wC3).2 ⟨0, 0⟩ (by simp [wC3])
  · simp [Vector2D.rotate, Vector2D.add_def, wC3, gC3]
  · norm_num [gC3]

lemma collisionLoop_zones (g : Robot) (i : ℕ) (objs : List GameObject) :
    ∀ (j : ℕ) (c : Bool),
      (∀ k o, objs[k]? = some o →
        ((∃ z, o = GameObject.zone z) ∨ (j + k = i ∧ ∃ r, o = GameObject.robot r))) →
      collisionLoop g i objs j c = c := by
  induction objs with
  | nil => intro j c _; rfl
  | cons o rest ih =>
    intro j c h
    have hrest : ∀ k o2, rest[k]? = some o2 →
        ((∃ z, o2 = GameObject.zone z) ∨ ((j + 1) + k = i ∧ ∃ r, o2 = GameObject.robot r)) := by
      intro k o2 hk
      rcases h (k + 1) o2 (by simpa using hk) with hz | ⟨hji, hrr⟩
      · exact Or.inl hz
      · exact Or.inr ⟨by omega, hrr⟩
    rcases h 0 o (by simp) with ⟨z, rfl⟩ | ⟨hji, r, rfl⟩
    · simp only [collisionLoop]
      exact ih (j + 1) c hrest
    · simp only [collisionLoop]
      rw [if_neg (fun hcon => hcon.1 (by omega))]
      exact ih (j + 1) c hrest

/-- C6: zones never participate in collision detection: when every other
registered object is a zone, the collision loop run for a robot reports no
collision — regardless of any overlap with the zones — and the tick step
for that robot keeps its motion-updated pose, with no rollback. -/
theorem C6_zones (g : Robot) (i : ℕ) (objs : List GameObject)
    (hz : ∀ k o, objs[k]? = some o → k ≠ i → ∃ z, o = GameObject.zone z)
    (hri : ∀ o, objs[i]? = some o → ∃ r, o = GameObject.robot r) :
    collisionLoop g i objs 0 false = false
    ∧ (∀ (m : GameObject → ℝ → Pose2D) (t : ℝ) (o : GameObject),
        objs[i]? = some o → processIdx m t objs i = objs.set i (o.moveTo (m o t))) := by
  constructor
  · apply collisionLoop_zones g i objs 0 false
    intro k o hk
    by_cases hki : k = i
    · subst hki
      exact Or.inr ⟨by omega, hri o hk⟩
    · exact Or.inl (hz k o hk hki)
  · intro m t o hio
    have hlt : i < objs.length := lt_length_of_getElem?_some hio
    obtain ⟨r0, rfl⟩ := hri o hio
    rw [processIdx, hio]
    dsimp only [GameObject.moveTo]
    rw [if_neg ?_]
    rw [collisionLoop_zones _ i _ 0 false ?_]
    · simp
    · intro k o2 hk
      by_cases hki : k = i
      · subst hki
        rw [List.getElem?_set_self (by simpa using hlt)] at hk
        exact Or.inr ⟨by omega, ⟨m (GameObject.robot r0) t, r0.radius⟩,
          by rw [← Option.some_inj.mp hk]⟩
      · rw [List.getElem?_set_ne (fun hcon => hki hcon.symm)] at hk
        exact Or.inl (hz k o2 hk hki)

def gC6 : Robot := ⟨⟨⟨0, 0⟩, ⟨0⟩⟩, 5⟩

def objsC6 : List GameObject := [.robot gC6, .zone ⟨⟨⟨0, 0⟩, ⟨0⟩⟩⟩]

/-- Witness for C6: a robot of radius 5 sitting exactly on top of a zone:
no collision is reported and the tick applies the motion update without
rollback. -/
theorem C6_zones_witness :
    collisionLoop gC6 0 objsC6 0 false = false
    ∧ processIdx (fun o _ => o.pose) 0 objsC6 0 =
        objsC6.set 0 ((GameObject.robot gC6).moveTo gC6.pose) := by
  have hz : ∀ k o, objsC6[k]? = some o → k ≠ 0 → ∃ z, o = GameObject.zone z := by
    intro k o hk hk0
    match k with
    | 0 => exact absurd rfl hk0
    | 1 =>
      refine ⟨⟨⟨⟨0, 0⟩, ⟨0⟩⟩⟩, ?_⟩
      simpa [objsC6] using hk.symm
    | (n + 2) => simp [objsC6] at hk
  have hri : ∀ o, objsC6[0]? = some o → ∃ r, o = GameObject.robot r := by
    intro o ho
    exact ⟨gC6, by simpa [objsC6] using ho.symm⟩
  have h := C6_zones gC6 0 objsC6 hz hri
  exact ⟨h.1, h.2 (fun o _ => o.pose) 0 (.robot gC6) (by simp [objsC6])⟩

def motionHold : GameObject → ℝ → Pose2D := fun o _ => o.pose

/-- C7 (amended): a tick whose motion updates are all no-ops (as at dt = 0)
never changes any object's pose: the object list after the tick is the
object list before it, for every starting configuration — even where
objects overlap.  (The collision flag may still be raised for overlapping
configurations, see the counterexample; the rollback it triggers restores
the identical pose.) -/
theorem C7_dt_zero (m : GameObject → ℝ → Pose2D) (objs : List GameObject)
    (h0 : ∀ o, m o 0 = o.pose) :
    updateObjects m 0 objs = objs := by
  have hstep : ∀ (l : List GameObject) (i : ℕ), processIdx m 0 l i = l := by
    intro l i
    rw [processIdx]
    cases hl : l[i]? with
    | none => rfl
    | some o =>
      dsimp only
      rw [h0 o, GameObject.moveTo_pose_self, List.set_self_of_getElem? hl]
      cases o with
      | robot r =>
        dsimp only
        rw [GameObject.moveTo_pose_self, List.set_self_of_getElem? hl]
        exact ite_self l
      | wall w => rfl
      | zone z => rfl
  unfold updateObjects
  generalize List.range objs.length = is
  induction is with
  | nil => rfl
  | cons k ks ih =>
    simp only [List.foldl_cons]
    rw [hstep]
    exact ih

/-- Counterexample to C7 as stated: with two already-overlapping robots and
a no-op motion update, the collision check that the dt = 0 tick performs
for the second robot DOES report a collision (and hence a rollback is
executed, though it restores the identical pose).  The second and third
conjuncts show that `collisionLoop rB 1 objsRR 0 false` is literally the
check `processIdx` runs at index 1: the motion update leaves the object
unchanged and the `set` is the identity. -/
theorem C7_dt_zero_cex :
    collisionLoop rB 1 objsRR 0 false = true
    ∧ (GameObject.robot rB).moveTo (motionHold (GameObject.robot rB) 0) = GameObject.robot rB
    ∧ objsRR.set 1 (GameObject.robot rB) = objsRR := by
  refine ⟨?_, rfl, rfl⟩
  simp only [objsRR, collisionLoop]
  rw [if_pos ?_]
  refine ⟨by omega, ?_⟩
  rw [robotHit, Vector2D.find_distance_lt_iff _ _
    (by norm_num [rB, rA] : (0:ℝ) < rB.radius + rA.radius)]
  norm_num [rA, rB]

/-- Witness for C7: applying the amended theorem to the overlapping
two-robot configuration with the pose-holding motion update: the tick at
dt = 0 leaves the object list unchanged. -/
theorem C7_dt_zero_witness : updateObjects motionHold 0 objsRR = objsRR :=
  C7_dt_zero motionHold objsRR (fun _ => rfl)

/-- C10: a robot is never collision-checked against itself: a lone robot's
tick always ends at its motion-updated pose with no rollback, for every
radius and pose — even though its own circle trivially overlaps itself
(distance zero is below twice any positive radius). -/
theorem C10_no_self (g : Robot) (m : GameObject → ℝ → Pose2D) (t : ℝ) :
    updateObjects m t [GameObject.robot g] =
      [(GameObject.robot g).moveTo (m (GameObject.robot g) t)]
    ∧ (0 < g.radius → robotHit g g) := by
  constructor
  · unfold updateObjects
    have hrange : List.range [GameObject.robot g].length = [0] := by
      simp [List.range_succ]
    rw [hrange]
    simp only [List.foldl_cons, List.foldl_nil]
    rw [processIdx]
    simp only [List.getElem?_cons_zero]
    dsimp only [GameObject.moveTo]
    rw [if_neg ?_]
    · rfl
    · simp only [List.set_cons_zero, collisionLoop]
      rw [if_neg (fun hcon => hcon.1 rfl)]
      simp
  · intro hr
    rw [robotHit, Vector2D.find_distance_self]
    linarith

def gC10 : Robot := ⟨⟨⟨2, 3⟩, ⟨0⟩⟩, 1⟩

/-- Witness for C10: a lone robot of radius 1: its circle overlaps itself,
yet the tick simply applies the motion update with no rollback. -/
theorem C10_no_self_witness :
    updateObjects motionHold 0 [GameObject.robot gC10] =
      [(GameObject.robot gC10).moveTo (motionHold (GameObject.robot gC10) 0)]
    ∧ robotHit gC10 gC10 :=
  ⟨(C10_no_self gC10 motionHold 0).1,
   (C10_no_self gC10 motionHold 0).2 (by norm_num [gC10])⟩

lemma vertexLoopT_agree (g : Robot) (w : Wall) (jdx : ℕ) :
    ∀ (vs : List Vector2D) (k : ℕ) (coords : List Vector2D) (evs : List CheckEvent),
      (vertexLoopT g w jdx vs k coords evs).1 = (vertexLoop g w vs coords).1
      ∧ (vertexLoopT g w jdx vs k coords evs).2.1 = (vertexLoop g w vs coords).2 := by
  intro vs
  induction vs with
  | nil => intro k coords evs; exact ⟨rfl, rfl⟩
  | cons v rest ih =>
    intro k coords evs
    simp only [vertexLoopT, vertexLoop]
    by_cases h : (worldVertex w v).find_distance g.pose.position < g.radius
    · rw [if_pos h, if_pos h]
      exact ⟨rfl, rfl⟩
    · rw [if_neg h, if_neg h]
      exact ih (k + 1) (coords ++ [worldVertex w v]) (evs ++ [.vertexTest jdx k])

lemma edgeLoopT_agree (g : Robot) (jdx : ℕ) :
    ∀ (es : List LineSegment2D) (k : ℕ) (evs : List CheckEvent),
      (edgeLoopT g jdx es k evs).1 = edgeLoop g es := by
  intro es
  induction es with
  | nil => intro k evs; rfl
  | cons e rest ih =>
    intro k evs
    simp only [edgeLoopT, edgeLoop]
    by_cases h : edgeCollides g e = true
    · rw [if_pos h, if_pos h]
    · rw [if_neg h, if_neg h]
      exact ih (k + 1) (evs ++ [.edgeTest jdx k])

lemma wallCheckT_agree (g : Robot) (w : Wall) (jdx : ℕ) :
    (wallCheckT g w jdx).1 = wallCheck g w := by
  rw [wallCheckT, wallCheck]
  obtain ⟨h1, h2⟩ := vertexLoopT_agree g w jdx w.vertex 0 [] []
  by_cases hv : (vertexLoop g w w.vertex []).1 = true
  · rw [if_pos (h1.trans hv), if_pos hv]
  · rw [if_neg (fun hc => hv (h1.symm.trans hc)), if_neg hv, h2]
    exact edgeLoopT_agree g jdx _ 0 _

lemma collisionLoopT_agree (g : Robot) (i : ℕ) :
    ∀ (objs : List GameObject) (j : ℕ) (c : Bool) (evs : List CheckEvent),
      (collisionLoopT g i objs j c evs).1 = collisionLoop g i objs j c := by
  intro objs
  induction objs with
  | nil => intro j c evs; rfl
  | cons o rest ih =>
    intro j c evs
    cases o with
    | robot r =>
      simp only [collisionLoopT, collisionLoop]
      by_cases hj : j ≠ i
      · rw [if_pos hj]
        by_cases hh : robotHit g r
        · rw [if_pos hh, if_pos ⟨hj, hh⟩]
        · rw [if_neg hh, if_neg (fun hc => hh hc.2)]
          exact ih (j + 1) c (evs ++ [.rrTest j])
      · rw [if_neg hj, if_neg (fun hc => hj hc.1)]
        exact ih (j + 1) c evs
    | wall w =>
      cases c with
      | true =>
        simp only [collisionLoopT, collisionLoop, if_true]
        exact ih (j + 1) true evs
      | false =>
        simp only [collisionLoopT, collisionLoop, Bool.false_eq_true, if_false]
        rw [ih (j + 1) (wallCheckT g w j).1 (evs ++ (wallCheckT g w j).2),
          wallCheckT_agree g w j]
        cases hwc : wallCheck g w with
        | true => simp
        | false => simp
    | zone z =>
      simp only [collisionLoopT, collisionLoop]
      exact ih (j + 1) c evs

lemma collisionLoopT_flag (g : Robot) (i : ℕ) :
    ∀ (objs : List GameObject) (j : ℕ) (evs : List CheckEvent),
      (collisionLoopT g i objs j true evs).1 = true
      ∧ ∀ e ∈ (collisionLoopT g i objs j true evs).2,
          e ∈ evs ∨ ∃ k, e = CheckEvent.rrTest k := by
  intro objs
  induction objs with
  | nil => intro j evs; exact ⟨rfl, fun e he => Or.inl he⟩
  | cons o rest ih =>
    intro j evs
    cases o with
    | robot r =>
      simp only [collisionLoopT]
      by_cases hj : j ≠ i
      · rw [if_pos hj]
        by_cases hh : robotHit g r
        · rw [if_pos hh]
          refine ⟨rfl, fun e he => ?_⟩
          rcases List.mem_append.mp he with h | h
          · exact Or.inl h
          · simp only [List.mem_singleton] at h
            exact Or.inr ⟨j, h⟩
        · rw [if_neg hh]
          obtain ⟨h1, h2⟩ := ih (j + 1) (evs ++ [.rrTest j])
          refine ⟨h1, fun e he => ?_⟩
          rcases h2 e he with h | h
          · rcases List.mem_append.mp h with h | h
            · exact Or.inl h
            · simp only [List.mem_singleton] at h
              exact Or.inr ⟨j, h⟩
          · exact Or.inr h
      · rw [if_neg hj]
        exact ih (j + 1) evs
    | wall w =>
      simp only [collisionLoopT, if_true]
      exact ih (j + 1) evs
    | zone z =>
      simp only [collisionLoopT]
      exact ih (j + 1) evs

/-- C5 (amended): the collision outcome is fixed by the first positive
predicate, and the evaluation order is registration order, but the halt is
not total: (1) a positive circle-circle test stops evaluation at once —
nothing after its event is evaluated; (2) once the collision flag is up
(after a positive wall vertex/edge test) the outcome stays collision and
no wall vertex or edge predicate is evaluated any more, yet the
circle-circle distance predicate is still evaluated against subsequent
distinct robots (the only deviation from the claim as stated); (3) the
instrumented loop computes exactly the collision verdict of the plain
engine. -/
theorem C5_short_circuit :
    (∀ (g : Robot) (i : ℕ) (r : Robot) (rest : List GameObject) (j : ℕ) (c : Bool)
        (evs : List CheckEvent), j ≠ i → robotHit g r →
        collisionLoopT g i (GameObject.robot r :: rest) j c evs =
          (true, evs ++ [CheckEvent.rrTest j]))
    ∧ (∀ (g : Robot) (i : ℕ) (objs : List GameObject) (j : ℕ) (evs : List CheckEvent),
        (collisionLoopT g i objs j true evs).1 = true
        ∧ ∀ e ∈ (collisionLoopT g i objs j true evs).2,
            e ∈ evs ∨ ∃ k, e = CheckEvent.rrTest k)
    ∧ (∀ (g : Robot) (i : ℕ) (objs : List GameObject) (j : ℕ) (c : Bool)
        (evs : List CheckEvent),
        (collisionLoopT g i objs j c evs).1 = collisionLoop g i objs j c) := by
  refine ⟨?_, fun g i objs j evs => collisionLoopT_flag g i objs j evs,
    fun g i objs j c evs => collisionLoopT_agree g i objs j c evs⟩
  intro g i r rest j c evs hj hh
  simp only [collisionLoopT]
  rw [if_pos hj, if_pos hh]

def gC5 : Robot := ⟨⟨⟨0, 0⟩, ⟨0⟩⟩, 1⟩

def wC5 : Wall := ⟨⟨⟨0, 0⟩, ⟨0⟩⟩, [⟨0, 0⟩]⟩

def oFar : GameObject := .robot ⟨⟨⟨10, 0⟩, ⟨0⟩⟩, 1⟩

def objsC5 : List GameObject := [.robot gC5, .wall wC5, oFar]

/-- Counterexample to C5 as stated: the robot at index 0 collides with the
wall at index 1 via its vertex test (first conjunct), yet the trace of the
full loop contains the circle-circle distance test against the robot at
index 2 AFTER that positive result — a predicate against a subsequent
object is still evaluated, contradicting "halts all further collision
evaluation". -/
theorem C5_order_cex :
    (wallCheckT gC5 wC5 1).1 = true
    ∧ collisionLoopT gC5 0 objsC5 0 false [] =
        (true, [CheckEvent.vertexTest 1 0, CheckEvent.rrTest 2]) := by
  have hd0 : (worldVertex wC5 ⟨0, 0⟩).find_distance gC5.pose.position = 0 := by
    have hw : worldVertex wC5 ⟨0, 0⟩ = gC5.pose.position := by
      simp [worldVertex, Vector2D.rotate, Vector2D.add_def, wC5, gC5]
    rw [hw, Vector2D.find_distance_self]
  have hv : vertexLoopT gC5 wC5 1 wC5.vertex 0 [] [] =
      (true, [], [CheckEvent.vertexTest 1 0]) := by
    rw [show wC5.vertex = [(⟨0, 0⟩ : Vector2D)] from rfl]
    simp only [vertexLoopT]
    rw [if_pos (by rw [hd0]; norm_num [gC5])]
    simp
  have hwall : wallCheckT gC5 wC5 1 = (true, [CheckEvent.vertexTest 1 0]) := by
    rw [wallCheckT, hv]
    simp
  have hnohit : ¬ robotHit gC5 ⟨⟨⟨10, 0⟩, ⟨0⟩⟩, 1⟩ := by
    rw [robotHit, Vector2D.find_distance_lt_iff _ _
      (by norm_num [gC5] : (0:ℝ) < gC5.radius + (⟨⟨⟨10, 0⟩, ⟨0⟩⟩, 1⟩ : Robot).radius)]
    norm_num [gC5]
  constructor
  · rw [hwall]
  · simp [objsC5, oFar, collisionLoopT, hwall, hnohit]

/-- Witness for C5 (amended): concrete applications of all three parts —
an immediate halt on a positive circle-circle test, the flag-up behavior,
and agreement with the plain collision loop. -/
theorem C5_short_circuit_witness :
    collisionLoopT rA 5 [GameObject.robot rB] 0 false [] = (true, [CheckEvent.rrTest 0])
    ∧ (collisionLoopT rA 5 [GameObject.robot rB] 0 true []).1 = true
    ∧ (collisionLoopT rA 5 [GameObject.robot rB] 0 false []).1 =
        collisionLoop rA 5 [GameObject.robot rB] 0 false := by
  refine ⟨?_, (C5_short_circuit.2.1 rA 5 [GameObject.robot rB] 0 []).1,
    C5_short_circuit.2.2 rA 5 [GameObject.robot rB] 0 false []⟩
  have h := C5_short_circuit.1 rA 5 rB [] 0 false [] (by omega) ?_
  · simpa using h
  · rw [robotHit, Vector2D.find_distance_lt_iff _ _
      (by norm_num [rA, rB] : (0:ℝ) < rA.radius + rB.radius)]
    norm_num [rA, rB]

/-- C9: `add_game_object` fails with a type-constraint error naming the
offending value's actual type exactly when the value is not a
`GameObject` (no new state is produced, so the collection is unchanged),
and otherwise appends the object to the end of the collection. -/
theorem C9_add_game_object (gm : Game) (v : PyValue) :
    ((∃ s, gm.add_game_object v = .error s) ↔ v.isGameObject = false)
    ∧ (∀ s, v = .other s →
        gm.add_game_object v =
          .error ("Cannot add '" ++ s ++ "' type as a game object."))
    ∧ (∀ o, v = .gameObject o →
        gm.add_game_object v = .ok ⟨gm.game_objects ++ [o]⟩) := by
  cases v <;> simp [Game.add_game_object, PyValue.isGameObject, PyValue.typeName]

/-- Witness for C9: adding the string name of a non-object type fails with
the formatted type error; adding a zone appends it. -/
theorem C9_add_game_object_witness :
    (Game.mk []).add_game_object (.other "int") =
      .error ("Cannot add '" ++ "int" ++ "' type as a game object.")
    ∧ (Game.mk []).add_game_object (.gameObject (.zone ⟨⟨⟨0, 0⟩, ⟨0⟩⟩⟩)) =
      .ok ⟨[.zone ⟨⟨⟨0, 0⟩, ⟨0⟩⟩⟩]⟩ := by
  refine ⟨(C9_add_game_object _ _).2.1 "int" rfl, ?_⟩
  have h := (C9_add_game_object (Game.mk []) (.gameObject (.zone ⟨⟨⟨0, 0⟩, ⟨0⟩⟩⟩))).2.2
    (.zone ⟨⟨⟨0, 0⟩, ⟨0⟩⟩⟩) rfl
  simpa using h

end
